import Mathlib

/-!
Verification of the ProtobufKMM generator core (`generator.py`) and the
Kotlin data-class plugin (`protoc-gen-kmm-data.py`) against its
natural-language specification.

The Python sources are shallowly embedded: descriptor messages become
structures, the generator's overridable methods become a `Hooks` record of
functions, and fallible Python operations (indexing an empty string or list,
calling a non-callable, unbounded recursion) are modelled with
`Except PyErr`.  Nested-message recursion is made structural with an explicit
recursion-depth budget (`fuel`), mirroring the Python interpreter's stack
limit; every theorem about concrete schemas supplies enough fuel for their
nesting depth.
-/

/-- Runtime errors of the embedded Python fragments. -/
inductive PyErr where
  /-- `IndexError`: indexing an empty string or list (`name[0]`, `lines[-1]`, `p[1]`). -/
  | indexError
  /-- `TypeError: 'dict' object is not callable` (`self.knownTypesByName(name)`). -/
  | typeErrorDictNotCallable
  /-- `TypeError`: a bound-method call with more positional arguments than the
  method's signature accepts (the engine passes a naming prefix that the
  `kmm-data` plugin's `processEnum`/`messageOpening` do not declare). -/
  | typeErrorArity
  /-- `AttributeError`: calling a method on `None`. -/
  | attributeError
  /-- `RecursionError`: message nesting deeper than the recursion budget. -/
  | recursionError
  deriving DecidableEq, Repr

/-! ## Python string primitives

These model the exact behaviour of the CPython `str` operations the
generator uses, over ASCII-ish Lean `String`s. -/

/-- Python `s.split(sep)` for a single-character separator, on the character
list: `"".split(",") == [""]`, `"a,,b".split(",") == ["a","","b"]`. -/
def pySplit (sep : Char) : List Char → List (List Char)
  | [] => [[]]
  | c :: rest =>
    let r := pySplit sep rest
    if c = sep then [] :: r
    else
      match r with
      | h :: t => (c :: h) :: t
      | [] => [[c]]

/-- Python `s.split(sep)` lifted to `String`. -/
def pySplitOnChar (sep : Char) (s : String) : List String :=
  (pySplit sep s.data).map String.mk

/-- Python `sep in s` for a single character. -/
def pyContains (s : String) (c : Char) : Bool :=
  s.data.contains c

/-- Python `s.endswith(suffix)`. -/
def pyEndsWith (s suffix : String) : Bool :=
  suffix.data.isSuffixOf s.data

/-- Python `s.startswith(t)`. -/
def pyStartsWith (s t : String) : Bool :=
  t.data.isPrefixOf s.data

/-- Python `s[:-1]`: drop the last character. -/
def strDropLast (s : String) : String :=
  ⟨s.data.dropLast⟩

/-- Python `s.lower()` (ASCII). -/
def pyLowerAll (s : String) : String :=
  ⟨s.data.map Char.toLower⟩

/-- Python `s.capitalize()` (ASCII): first character uppercased, all
remaining characters lowercased; total (`"".capitalize() == ""`). -/
def pyCapitalize (s : String) : String :=
  match s.data with
  | [] => ""
  | c :: r => ⟨c.toUpper :: r.map Char.toLower⟩

/-- `s[0].upper() + s[1:]` made total by sending `""` to `""`; the partial
Python behaviour is kept by `typeNameCaseE`. -/
def upperFirstTotal (s : String) : String :=
  match s.data with
  | [] => ""
  | c :: r => ⟨c.toUpper :: r⟩

/-- `s[0].lower() + s[1:]` made total by sending `""` to `""`. -/
def lowerFirstTotal (s : String) : String :=
  match s.data with
  | [] => ""
  | c :: r => ⟨c.toLower :: r⟩

/-! ## The descriptor data model (read-only schema tree) -/

/-- One `(constant-name, integer value)` pair of an enum. -/
structure EnumValueDescriptorProto where
  name : String
  number : Int
  deriving DecidableEq, Repr

/-- A protobuf enum declaration. -/
structure EnumDescriptorProto where
  name : String
  value : List EnumValueDescriptorProto
  deriving DecidableEq, Repr

/-- A field of a message: wire-type code, optional fully-qualified type
reference (empty for scalars), repetition label and raw default literal. -/
structure FieldDescriptorProto where
  name : String
  type : Nat
  type_name : String
  label : Nat
  default_value : String
  deriving DecidableEq, Repr

/-- `FieldDescriptorProto.Type.TYPE_MESSAGE`. -/
def FieldDescriptorProto.TYPE_MESSAGE : Nat := 11

/-- `FieldDescriptorProto.Type.TYPE_ENUM`. -/
def FieldDescriptorProto.TYPE_ENUM : Nat := 14

/-- `FieldDescriptorProto.Label.LABEL_REPEATED`. -/
def FieldDescriptorProto.LABEL_REPEATED : Nat := 3

/-- A protobuf message declaration (tree: nested messages recurse). -/
inductive DescriptorProto where
  | mk (name : String) (field : List FieldDescriptorProto)
       (nested_type : List DescriptorProto) (enum_type : List EnumDescriptorProto)

/-- Message name accessor. -/
def DescriptorProto.name : DescriptorProto → String
  | .mk n _ _ _ => n

/-- Message field-list accessor. -/
def DescriptorProto.field : DescriptorProto → List FieldDescriptorProto
  | .mk _ f _ _ => f

/-- Nested-message accessor. -/
def DescriptorProto.nested_type : DescriptorProto → List DescriptorProto
  | .mk _ _ n _ => n

/-- Nested-enum accessor. -/
def DescriptorProto.enum_type : DescriptorProto → List EnumDescriptorProto
  | .mk _ _ _ e => e

/-- A schema file: package, top-level enums and messages. -/
structure FileDescriptorProto where
  name : String
  package : String
  enum_type : List EnumDescriptorProto
  message_type : List DescriptorProto

/-- One named text output added to the `CodeGeneratorResponse`. -/
structure GeneratedFile where
  name : String
  content : String
  deriving DecidableEq, Repr

/-! ## Naming Normalizer (`Generator.typeNameCase` etc., generator.py:498-538) -/

/-- `Generator.typeNameCase`, total variant: `"foo_bar" -> "FooBar"`,
`"foo" -> "Foo"`.  The Python indexes `name[0]` in the no-underscore branch
and raises `IndexError` on `""`; that partiality is modelled by
`typeNameCaseE`, with which this function agrees on every non-empty name. -/
def typeNameCase (name : String) : String :=
  if pyContains name '_' = false then upperFirstTotal name
  else String.join ((pySplitOnChar '_' name).map pyCapitalize)

/-- `Generator.typeNameCase` with the Python `IndexError` on `""` kept. -/
def typeNameCaseE (name : String) : Except PyErr String :=
  if pyContains name '_' = false then
    match name.data with
    | [] => .error .indexError
    | c :: r => .ok ⟨c.toUpper :: r⟩
  else .ok (String.join ((pySplitOnChar '_' name).map pyCapitalize))

/-- `Generator.enumCase`: uppercase the raw string verbatim. -/
def enumCase (name : String) : String :=
  ⟨name.data.map Char.toUpper⟩

/-- `Generator.memberCase`, total variant: camelCase, `"foo_bar" -> "fooBar"`.
The Python indexes `name[0]` (no-underscore branch) or `elements[0][0]`
(underscore branch) and can raise `IndexError`; that partiality is modelled
by `memberCaseE`. -/
def memberCase (name : String) : String :=
  if pyContains name '_' = false then lowerFirstTotal name
  else
    match (pySplitOnChar '_' name).map pyCapitalize with
    | [] => ""  -- unreachable: pySplit never returns []
    | e0 :: tail => String.join (lowerFirstTotal e0 :: tail)

/-- `Generator.memberCase` with the Python `IndexError`s kept: raised on
`""`, and on a name starting with `_` (empty first segment). -/
def memberCaseE (name : String) : Except PyErr String :=
  if pyContains name '_' = false then
    match name.data with
    | [] => .error .indexError
    | c :: r => .ok ⟨c.toLower :: r⟩
  else
    match (pySplitOnChar '_' name).map pyCapitalize with
    | [] => .ok ""  -- unreachable: pySplit never returns []
    | e0 :: tail =>
      match e0.data with
      | [] => .error .indexError
      | c :: r => .ok (String.join (⟨c.toLower :: r⟩ :: tail))

/-- `Generator.swiftMemberCase` (generator.py:522-538).  Note that the
no-underscore branch does not return early (unlike `memberCase`), so its
result is fed through the split/capitalize pipeline again. -/
def swiftMemberCase (name : String) : String :=
  let name1 :=
    if pyContains name '_' = false then
      let n := lowerFirstTotal name
      if pyEndsWith n "Id" then strDropLast n ++ "D" else n
    else name
  match (pySplitOnChar '_' name1).map pyCapitalize with
  | [] => ""  -- unreachable: pySplit never returns []
  | e0 :: tail =>
    String.join (lowerFirstTotal e0 :: tail.map (fun e => if e = "Id" then "ID" else e))

/-! ## Type Mapper (generator.py:419-479) -/

/-- `self.knownTypes`: the built-in type table keyed by wire-type code. -/
def knownTypes : List (Option String) :=
  [none,
   some "Double", some "Float", some "Long", some "Long", some "Int",
   some "Long", some "Int", some "Boolean", some "String",
   none,  -- Group
   none,  -- Message
   some "ByteArray", some "Int",
   none,  -- Enum
   some "Int", some "Long",
   some "Int", some "Long"]

/-- `self.knownTypesByName`: the built-in type table keyed by scalar keyword. -/
def knownTypesByName : List (String × String) :=
  [("double", "Double"), ("float", "Float"), ("int32", "Int"),
   ("int64", "Long"), ("uint32", "Int"), ("uint64", "Long"),
   ("sint32", "Int"), ("sint64", "Long"), ("fixed32", "Int"),
   ("fixed64", "Long"), ("sfixed32", "Int"), ("sfixed64", "Long"),
   ("bool", "Boolean"), ("string", "String"), ("bytes", "ByteArray")]

namespace Generator

/-- `Generator.getBuiltInTypeByNumber`: `None` when the code is past the end
of the table or the entry is `None`. -/
def getBuiltInTypeByNumber (number : Nat) : Option String :=
  if number ≥ knownTypes.length then none
  else (knownTypes.getD number none)

/-- `Generator.getBuiltInTypeByName` (generator.py:475-479).  The source is
`return self.knownTypesByName(name)`: it *calls* the dict instead of
indexing it, so every invocation raises
`TypeError: 'dict' object is not callable`.  (`knownTypesByName` above holds
the table the lookup was evidently meant to consult.) -/
def getBuiltInTypeByName (_name : String) : Except PyErr (Option String) :=
  .error .typeErrorDictNotCallable

/-- `Generator.convertTypeName`: strips a leading `.`-qualifier (dropping the
first qualifier segment) and applies `typeNameCase`. -/
def convertTypeName (swift : Bool) (name : String) : String :=
  if pyStartsWith name "." then
    let parts := pySplitOnChar '.' name
    if swift then
      typeNameCase (parts.getD 1 "") ++ typeNameCase (String.join (parts.drop 2))
    else
      typeNameCase (String.intercalate "." (parts.drop 2))
  else typeNameCase name

/-- `Generator.getTypeName` (generator.py:419-434): maps a wire-type code
plus optional type reference to a Kotlin type name.  `None.startswith`
(message/enum kind with no reference) and the `getBuiltInTypeByName` call
surface as errors. -/
def getTypeName (swift : Bool) (number : Nat) (typeName : Option String) :
    Except PyErr String :=
  if number = FieldDescriptorProto.TYPE_MESSAGE then
    match typeName with
    | some t => .ok (convertTypeName swift t ++ "?")
    | none => .error .attributeError
  else if number = FieldDescriptorProto.TYPE_ENUM then
    match typeName with
    | some t => .ok (convertTypeName swift t)
    | none => .error .attributeError
  else
    let rest : Except PyErr String :=
      match typeName with
      | none => .ok "Any?"
      | some t =>
        match getBuiltInTypeByName t with
        | .error e => .error e
        | .ok (some n) => .ok n
        | .ok none => .ok (convertTypeName swift t ++ "?")
    if number ≠ 0 then
      match getBuiltInTypeByNumber number with
      | some n => .ok n
      | none => rest
    else rest

/-- `Generator.typeIsBuiltIn` (generator.py:436-452). -/
def typeIsBuiltIn (number : Nat) (typeName : Option String) :
    Except PyErr Bool :=
  if number = FieldDescriptorProto.TYPE_MESSAGE then .ok false
  else if number = FieldDescriptorProto.TYPE_ENUM then .ok false
  else
    let rest : Except PyErr Bool :=
      match typeName with
      | none => .ok true  -- would be Any?, shouldn't be converted
      | some t =>
        match getBuiltInTypeByName t with
        | .error e => .error e
        | .ok (some _) => .ok true
        | .ok none => .ok false
    if number ≠ 0 then
      match getBuiltInTypeByNumber number with
      | some _ => .ok true
      | none => rest
    else rest

end Generator

/-! ## Invocation parameters (`Generator.loadParameters`, generator.py:76-82) -/

/-- Python `dict` insertion: replace an existing binding, else append. -/
def dictInsert (d : List (String × String)) (k v : String) :
    List (String × String) :=
  if d.any (fun p => p.1 == k) then
    d.map (fun p => if p.1 == k then (k, v) else p)
  else d ++ [(k, v)]

/-- Python `dict` built from a pair sequence, insertion order kept. -/
def dictOfPairs (ps : List (String × String)) : List (String × String) :=
  ps.foldl (fun d p => dictInsert d p.1 p.2) []

/-- Python `d.get(k, default)`. -/
def dictGet (d : List (String × String)) (k dflt : String) : String :=
  match d.find? (fun p => p.1 == k) with
  | some p => p.2
  | none => dflt

/-- `Generator.loadParameters`: splits the request's parameter string on `,`,
each entry on `=`, and builds `{p[0]: p[1]}`; an entry with no `=` raises
`IndexError` at `p[1]`, and an empty parameter string yields `{}`. -/
def Generator.loadParameters (parameter : String) :
    Except PyErr (List (String × String)) :=
  if parameter.length > 0 then do
    let entries := (pySplit ',' parameter.data).map (pySplit '=')
    let pairs ← entries.mapM (fun p =>
      match p with
      | k :: v :: _ => Except.ok ((⟨k⟩ : String), (⟨v⟩ : String))
      | _ => Except.error PyErr.indexError)
    Except.ok (dictOfPairs pairs)
  else Except.ok []

/-! ## Traversal Engine (`Generator.processMessage` etc.)

The engine is target-agnostic: the overridable emission methods
(`processEnum`, `processField`, `messageOpening`, `messageClosing`) are a
`Hooks` record, exactly the template-method contract of `Generator`.  The
`kmm-data` plugin supplies one concrete valuation below. -/

/-- Per-invocation generator state loaded before traversal: the `swift` mode
flag, the parsed invocation parameters, and the Kotlin output package
(derived by `loadOptions` from the file's `java_package` option). -/
structure Config where
  swift : Bool
  parameters : List (String × String)
  kmmPackage : String

/-- The overridable emission hooks of `Generator`.  Results live in
`Except PyErr` so a hook (e.g. a field hook consulting the broken
`getBuiltInTypeByName`) can surface a Python error. -/
structure Hooks where
  processEnum : String → EnumDescriptorProto → Nat → Except PyErr (List String)
  processField : DescriptorProto → FieldDescriptorProto → Nat → Except PyErr (List String)
  messageOpening : String → DescriptorProto → String → Nat → Except PyErr (List String)
  messageClosing : DescriptorProto → String → Nat → Except PyErr (List String)

/-- Sequence a list of emitted blocks, propagating the first error. -/
def exceptConcat (l : List (Except PyErr (List String))) :
    Except PyErr (List String) :=
  (l.mapM id).map List.flatten

namespace Generator

/-- `Generator.getRole`: `""` in the base class; no plugin in the tree
overrides it. -/
def getRole : String := ""

/-- The trailing-separator fix-up (generator.py:252-255):
`if lines[-1].endswith(","): lines[-1] = lines[-1][:-1]`.  Indexing
`lines[-1]` raises `IndexError` on an empty buffer (unreachable here:
every message-open hook emits at least one line). -/
def fixTrailingComma (lines : List String) : Except PyErr (List String) :=
  match lines.getLast? with
  | none => .error .indexError
  | some l =>
    .ok (if pyEndsWith l "," then lines.dropLast ++ [strDropLast l] else lines)

/-- `Generator.processMessage` (generator.py:230-258).  `fuel` bounds the
nesting depth (Python's recursion limit); any fuel at least the schema's
nesting depth gives the Python behaviour.  Note the prefix handed to the
nested recursion: the source runs `prefix += "." + name` and then passes
`prefix + name`, so a nested message receives its parent's cased name twice. -/
def processMessage (h : Hooks) : Nat → String → DescriptorProto → Nat →
    Except PyErr (List String)
  | 0, _, _, _ => .error .recursionError
  | fuel + 1, pfx, msg, il => do
    let pre ← (do
      let name := typeNameCase msg.name
      let opening ← h.messageOpening pfx msg name il
      let pfx1 := pfx ++ "." ++ name
      let enums ← exceptConcat (msg.enum_type.map
        (fun e => (h.processEnum pfx1 e (il + 1)).map (· ++ [""])))
      let nesteds ← exceptConcat (msg.nested_type.map
        (fun n => (processMessage h fuel (pfx1 ++ name) n (il + 1)).map (· ++ [""])))
      let fields ← exceptConcat (msg.field.map
        (fun f => h.processField msg f (il + 1)))
      pure (opening ++ enums ++ nesteds ++ fields))
    let fixed ← fixTrailingComma pre
    let close ← h.messageClosing msg (typeNameCase msg.name) il
    pure (fixed ++ close)

/-- The line buffer `processMessage` accumulates before the
trailing-separator fix-up and the close hook run (generator.py:238-251). -/
def messageBody (h : Hooks) (fuel : Nat) (pfx : String) (msg : DescriptorProto)
    (il : Nat) : Except PyErr (List String) := do
  let name := typeNameCase msg.name
  let opening ← h.messageOpening pfx msg name il
  let pfx1 := pfx ++ "." ++ name
  let enums ← exceptConcat (msg.enum_type.map
    (fun e => (h.processEnum pfx1 e (il + 1)).map (· ++ [""])))
  let nesteds ← exceptConcat (msg.nested_type.map
    (fun n => (processMessage h fuel (pfx1 ++ name) n (il + 1)).map (· ++ [""])))
  let fields ← exceptConcat (msg.field.map
    (fun f => h.processField msg f (il + 1)))
  pure (opening ++ enums ++ nesteds ++ fields)

/-- `processMessage` decomposed as body, fix-up, close hook. -/
theorem processMessage_succ (h : Hooks) (fuel : Nat) (pfx : String)
    (msg : DescriptorProto) (il : Nat) :
    processMessage h (fuel + 1) pfx msg il = (do
      let pre ← messageBody h fuel pfx msg il
      let fixed ← fixTrailingComma pre
      let close ← h.messageClosing msg (typeNameCase msg.name) il
      pure (fixed ++ close)) := by
  rw [processMessage, messageBody]

/-- `Generator.getDataHeader` (generator.py:193-203). -/
def getDataHeader (cfg : Config) : List String :=
  if cfg.swift then
    ["import " ++ dictGet cfg.parameters "shared_module" "shared", ""]
  else
    ["package " ++ cfg.kmmPackage, ""]

/-- `Generator.getDataFooter`. -/
def getDataFooter : List String := []

/-- `Generator.getOutputFilenameForClass` (generator.py:107-118): one file
per package+role in Swift, one file per declaration in Kotlin. -/
def getOutputFilenameForClass (cfg : Config) (protoName className : String) :
    String :=
  if cfg.swift then typeNameCase protoName ++ "_" ++ className ++ ".swift"
  else className ++ ".kt"

/-- `Generator.processMessagesAndEnums` (generator.py:134-179): the files
this call adds to the response, in order.  In Swift one accumulated file; in
Kotlin one file per enum, then one per message. -/
def processMessagesAndEnums (cfg : Config) (h : Hooks) (fuel : Nat)
    (protoFile : FileDescriptorProto) : Except PyErr (List GeneratedFile) := do
  let protoName := typeNameCase protoFile.name
  if cfg.swift then
    let enumBlocks ← exceptConcat (protoFile.enum_type.map
      (fun e => (h.processEnum protoName e 0).map (· ++ [""])))
    let msgBlocks ← exceptConcat (protoFile.message_type.map
      (fun m => (processMessage h fuel protoName m 0).map (· ++ [""])))
    let content := getDataHeader cfg ++ enumBlocks ++ msgBlocks ++ getDataFooter
    pure [⟨getOutputFilenameForClass cfg protoFile.package getRole,
           String.intercalate "\n" content⟩]
  else
    let enumFiles ← protoFile.enum_type.mapM (fun e => do
      let block ← h.processEnum protoName e 0
      let content := getDataHeader cfg ++ block ++ getDataFooter
      pure (⟨getOutputFilenameForClass cfg protoFile.package
               (convertTypeName cfg.swift e.name ++ getRole),
             String.intercalate "\n" content⟩ : GeneratedFile))
    let msgFiles ← protoFile.message_type.mapM (fun m => do
      let block ← processMessage h fuel protoName m 0
      let content := getDataHeader cfg ++ block ++ getDataFooter
      pure (⟨getOutputFilenameForClass cfg protoFile.package
               (convertTypeName cfg.swift m.name ++ getRole),
             String.intercalate "\n" content⟩ : GeneratedFile))
    pure (enumFiles ++ msgFiles)

end Generator

/-! ## The Kotlin data-class target (`protoc-gen-kmm-data.py`)

The plugin's `processEnum` (protoc-gen-kmm-data.py:17) and `messageOpening`
(line 44) are declared *without* the naming-prefix parameter the engine
passes (generator.py:145,239,243), so in Python the engine's calls to them
raise `TypeError` (one positional argument too many) before any line is
emitted; `processField` and `messageClosing` declare exactly the parameters
the engine passes and run normally.  The `ktDataHooks` valuation below keeps
this behaviour: the two arity-incompatible hooks surface the `TypeError`,
the two compatible ones forward to the plugin's bodies.  The bodies
themselves (`processEnum`, `messageOpening`, `messageClosing`,
`processField`) are embedded from the source for use by the arity-compatible
hooks and by theorems about the hook bodies in isolation. -/

namespace KtDataGenerator

/-- `"    " * indentationLevel`. -/
def indentStr (n : Nat) : String :=
  String.join (List.replicate n "    ")

/-- `KtDataGenerator.processEnum` (protoc-gen-kmm-data.py:17-42). -/
def processEnum (enum : EnumDescriptorProto) (indentationLevel : Nat) :
    List String :=
  let indent0 := indentStr indentationLevel
  let indent1 := indent0 ++ "    "
  let indent2 := indent1 ++ "    "
  [indent0 ++ "enum class " ++ typeNameCase enum.name ++ "(val value: Int) \x7b"]
  ++ enum.value.map (fun m =>
       indent1 ++ enumCase m.name ++ "(" ++ toString m.number ++ "),")
  ++ [indent1 ++ ";",
      indent1 ++ "companion object \x7b"]
  ++ enum.value.map (fun m =>
       indent2 ++ "const val " ++ enumCase m.name ++ "_VALUE = " ++ toString m.number)
  ++ ["",
      indent2 ++ "infix fun from(value: Int) = values().first \x7b it.value == value \x7d",
      indent1 ++ "\x7d",
      indent0 ++ "\x7d"]

/-- `KtDataGenerator.messageOpening`. -/
def messageOpening (name : String) (indentationLevel : Nat) : List String :=
  [indentStr indentationLevel ++ "data class " ++ name ++ "("]

/-- `KtDataGenerator.messageClosing`. -/
def messageClosing (indentationLevel : Nat) : List String :=
  [indentStr indentationLevel ++ ")"]

/-- `KtDataGenerator.processField` (protoc-gen-kmm-data.py:55-89): maps the
field through the Type Mapper, wraps repeated fields in `List<...>` (with a
trailing `?` stripped from the element first), and picks the default
literal. -/
def processField (_msg : DescriptorProto) (field : FieldDescriptorProto)
    (indentationLevel : Nat) : Except PyErr (List String) :=
  (Generator.getTypeName false field.type (some field.type_name)).map
    (fun typeName0 =>
      let typeName :=
        if field.label = FieldDescriptorProto.LABEL_REPEATED then
          "List<" ++ (if pyEndsWith typeName0 "?" then strDropLast typeName0
                      else typeName0) ++ ">"
        else typeName0
      let dflt :=
        if field.label = FieldDescriptorProto.LABEL_REPEATED then "emptyList()"
        else if field.default_value ≠ "" then
          if typeName0 = "String" then "\"" ++ field.default_value ++ "\""
          else field.default_value
        else if typeName0 = "String" then "\"\""
        else if typeName0 = "Boolean" then "false"
        else if typeName0 = "Int" then "0"
        else if typeName0 = "Long" then "0L"
        else if typeName0 = "Double" then "0.0"
        else if typeName0 = "Float" then "0.0F"
        else if typeName0 = "ByteArray" then "ByteArray(size = 0)"
        else if field.type = FieldDescriptorProto.TYPE_ENUM then typeName0 ++ " from 0"
        else "null"
      [indentStr indentationLevel ++ "val " ++ memberCase field.name ++ ": "
       ++ typeName ++ " = " ++ dflt ++ ","])

end KtDataGenerator

/-- The `kmm-data` plugin paired with the traversal engine, faithfully: the
engine invokes `processEnum`/`messageOpening` with a leading naming-prefix
argument that `KtDataGenerator`'s method signatures do not accept, so those
calls raise `TypeError` in Python; `processField` and `messageClosing` have
matching signatures and run the plugin's bodies. -/
def ktDataHooks : Hooks where
  processEnum := fun _ _ _ => .error .typeErrorArity
  processField := KtDataGenerator.processField
  messageOpening := fun _ _ _ _ => .error .typeErrorArity
  messageClosing := fun _ _ il => .ok (KtDataGenerator.messageClosing il)

/-- A signature-conforming target for the engine's hook contract (spec §4.4:
every hook receives the naming prefix) whose field-emission hook is the
`kmm-data` field emitter `KtDataGenerator.processField` taken verbatim and
whose close hook is the (arity-compatible) `kmm-data` one; the enum and open
hooks are minimal conforming stand-ins that accept the engine's prefix
argument (the open hook emits the `kmm-data` opening line).  Used to
exercise the engine's trailing-separator fix-up through the real
field-default path. -/
def c5Hooks : Hooks where
  processEnum := fun pfx e il =>
    .ok ["enum " ++ pfx ++ " " ++ e.name ++ " " ++ toString il]
  processField := KtDataGenerator.processField
  messageOpening := fun _ _ name il =>
    .ok (KtDataGenerator.messageOpening name il)
  messageClosing := fun _ _ il => .ok (KtDataGenerator.messageClosing il)

/-- A hook valuation that merely records the arguments the engine hands to
each hook; a concrete input used to observe the engine's traversal order and
the naming prefix it passes to the nested-message recursion. -/
def probeHooks : Hooks where
  processEnum := fun pfx e il =>
    .ok ["enum " ++ pfx ++ " " ++ e.name ++ " " ++ toString il]
  processField := fun _ f il =>
    .ok ["field " ++ f.name ++ " " ++ toString il]
  messageOpening := fun pfx _ name il =>
    .ok ["open " ++ pfx ++ " " ++ name ++ " " ++ toString il]
  messageClosing := fun _ name il =>
    .ok ["close " ++ name ++ " " ++ toString il]

/-! ## Shared lemmas about the Python string primitives -/

theorem pySplit_ne_nil (sep : Char) (l : List Char) : pySplit sep l ≠ [] := by
  induction l with
  | nil => simp [pySplit]
  | cons c rest ih =>
    simp only [pySplit]
    by_cases hc : c = sep
    · simp [hc]
    · simp only [if_neg hc]
      match h : pySplit sep rest with
      | [] => simp
      | x :: xs => simp

theorem pySplit_not_mem {sep : Char} {l : List Char} (h : sep ∉ l) :
    pySplit sep l = [l] := by
  induction l with
  | nil => rfl
  | cons c rest ih =>
    have hc : ¬(c = sep) := fun e => h (e ▸ List.mem_cons_self c rest)
    have hr : sep ∉ rest := fun m => h (List.mem_cons_of_mem _ m)
    simp [pySplit, hc, ih hr]

theorem charToNat_ofNat_valid {m : Nat} (h : m.isValidChar) :
    (Char.ofNat m).toNat = m := by
  rw [Char.ofNat, dif_pos h]
  rfl

theorem toLower_toUpper (c : Char) : c.toUpper.toLower = c.toLower := by
  simp only [Char.toUpper, Char.toLower]
  by_cases h : c.toNat ≥ 97 ∧ c.toNat ≤ 122
  · rw [if_pos h]
    have hvalid : (c.toNat - 32).isValidChar := Or.inl (by omega)
    rw [charToNat_ofNat_valid hvalid]
    rw [if_pos (by omega), if_neg (by omega)]
    have he : c.toNat - 32 + 32 = c.toNat := by omega
    rw [he, Char.ofNat_toNat]
  · rw [if_neg h]

theorem toLower_toLower (c : Char) : c.toLower.toLower = c.toLower := by
  simp only [Char.toLower]
  by_cases h : c.toNat ≥ 65 ∧ c.toNat ≤ 90
  · rw [if_pos h]
    have hvalid : (c.toNat + 32).isValidChar := Or.inl (by omega)
    rw [charToNat_ofNat_valid hvalid]
    rw [if_neg (by omega)]
  · rw [if_neg h, if_neg h]

theorem lowerFirst_capitalize (s : String) :
    lowerFirstTotal (pyCapitalize s) = pyLowerAll s := by
  obtain ⟨d⟩ := s
  match d with
  | [] => rfl
  | c :: r =>
    show lowerFirstTotal ⟨c.toUpper :: r.map Char.toLower⟩ = _
    simp [lowerFirstTotal, pyLowerAll, toLower_toUpper]

theorem strAppend_assoc (a b c : String) : a ++ b ++ c = a ++ (b ++ c) := by
  obtain ⟨x⟩ := a
  obtain ⟨y⟩ := b
  obtain ⟨z⟩ := c
  show String.mk (x ++ y ++ z) = String.mk (x ++ (y ++ z))
  rw [List.append_assoc]

theorem pyLowerAll_lowerFirst (s : String) :
    pyLowerAll (lowerFirstTotal s) = pyLowerAll s := by
  obtain ⟨d⟩ := s
  match d with
  | [] => rfl
  | c :: r =>
    show pyLowerAll ⟨c.toLower :: r⟩ = _
    simp [pyLowerAll, toLower_toLower]

/-! ## Claim C2 -/

/-- Claim C2 (code bug): the claim (and spec) say a field whose wire-type
code is outside the known built-in range but which carries a type reference
falls through to user-type resolution without error and is classified as
not built-in.  The code instead *calls* the `knownTypesByName` dict
(generator.py:479), so both `getTypeName` and `typeIsBuiltIn` raise
`TypeError: 'dict' object is not callable` on such a field. -/
theorem c2_out_of_range_code_raises :
    Generator.getTypeName false 99 (some ".my.pkg.Foo") =
      .error .typeErrorDictNotCallable ∧
    Generator.typeIsBuiltIn 99 (some ".my.pkg.Foo") =
      .error .typeErrorDictNotCallable :=
  ⟨rfl, rfl⟩

/-! ## Claim C9 -/

/-- Claim C9: `typeNameCase` and `memberCase` are partial on the empty
string: both index the first character of a no-underscore name, so `""`
raises `IndexError`; a non-empty identifier is thus required for totality. -/
theorem c9_empty_name_raises :
    typeNameCaseE "" = .error .indexError ∧
    memberCaseE "" = .error .indexError :=
  ⟨rfl, rfl⟩

/-! ## Claim C4 -/

/-- The per-segment operation exactly as the claim words it: "uppercases the
first character of every segment" (leaving the rest of the segment
unchanged).  Spec-side definition, for comparison with the source's
`capitalize`-based one. -/
def typeNameCaseClaimed (name : String) : String :=
  if pyContains name '_' = false then upperFirstTotal name
  else String.join ((pySplitOnChar '_' name).map upperFirstTotal)

/-- Claim C4 counterexample: the source `capitalize`s each segment, which
also lowercases the segment's remaining characters; on `"foo_bAr"` the code
yields `"FooBar"`, while the claim's per-segment rule yields `"FooBAr"`. -/
theorem c4_counterexample :
    typeNameCase "foo_bAr" = "FooBar" ∧
    typeNameCaseClaimed "foo_bAr" = "FooBAr" ∧
    typeNameCase "foo_bAr" ≠ typeNameCaseClaimed "foo_bAr" := by
  refine ⟨rfl, rfl, ?_⟩
  decide

/-- The amended per-segment rule: each underscore-separated segment is
`capitalize`d — first character uppercased *and the remaining characters
lowercased*.  Spec-side definition following the amended claim's words. -/
def typeNameCaseAmendedSpec (name : String) : String :=
  if pyContains name '_' = false then upperFirstTotal name
  else String.join ((pySplitOnChar '_' name).map pyCapitalize)

/-- Claim C4, amended: for every non-empty name, if it contains no
underscore only its first character is uppercased (rest unchanged);
otherwise it is split on underscore, each segment capitalized (first
character uppercased, remainder lowercased) and the segments concatenated;
in particular `typeNameCase "foo_bar" = "FooBar"` and
`typeNameCase "foo" = "Foo"`. -/
theorem c4_amended (name : String) (hne : name ≠ "") :
    typeNameCaseE name = .ok (typeNameCaseAmendedSpec name) ∧
    typeNameCase "foo_bar" = "FooBar" ∧
    typeNameCase "foo" = "Foo" := by
  refine ⟨?_, rfl, rfl⟩
  obtain ⟨d⟩ := name
  match d with
  | [] => exact absurd rfl hne
  | c :: r =>
    simp only [typeNameCaseE, typeNameCaseAmendedSpec]
    by_cases h : pyContains ⟨c :: r⟩ '_' = false
    · rw [if_pos h, if_pos h]
      rfl
    · rw [if_neg h, if_neg h]

/-- Witness for `c4_amended` at the concrete input `"foo_bar"`. -/
theorem c4_amended_witness :
    typeNameCaseE "foo_bar" = .ok "FooBar" ∧ typeNameCase "foo" = "Foo" :=
  ⟨((c4_amended "foo_bar" (by decide)).1).trans (by rfl),
   (c4_amended "foo_bar" (by decide)).2.2⟩

/-! ## Claim C10 -/

theorem listContains_eq_false_iff {l : List Char} {c : Char} :
    (l.contains c = false) ↔ c ∉ l := by
  simp [List.contains]

/-- Claim C10: `loadParameters` maps a `key=v1=v2` entry to `key ↦ v1`
(the remainder after the second `=` is silently dropped, because the dict
comprehension reads only `p[0]` and `p[1]`); an entry with no `=` raises
`IndexError`; an empty parameter string yields an empty map. -/
theorem c10_loadParameters :
    (∀ (e k v1 v2 : List Char),
       pySplit '=' e = [k, v1, v2] → e.contains ',' = false →
       Generator.loadParameters ⟨e⟩ = .ok [(⟨k⟩, ⟨v1⟩)]) ∧
    (∀ e : List Char, e ≠ [] → e.contains ',' = false → e.contains '=' = false →
       Generator.loadParameters ⟨e⟩ = .error .indexError) ∧
    Generator.loadParameters "" = .ok [] := by
  refine ⟨?_, ?_, rfl⟩
  · intro e k v1 v2 hsplit hnc
    have hne : e ≠ [] := by
      intro h
      rw [h] at hsplit
      simp [pySplit] at hsplit
    have hlen : (⟨e⟩ : String).length > 0 := by
      show e.length > 0
      exact List.length_pos.mpr hne
    have hsplit1 : pySplit ',' e = [e] :=
      pySplit_not_mem (listContains_eq_false_iff.mp hnc)
    rw [Generator.loadParameters, if_pos hlen]
    show (do
      let pairs ← ((pySplit ',' e).map (pySplit '=')).mapM _
      Except.ok (dictOfPairs pairs)) = _
    rw [hsplit1]
    show (do
      let pairs ← ([pySplit '=' e]).mapM _
      Except.ok (dictOfPairs pairs)) = _
    rw [hsplit]
    rfl
  · intro e hne hnc hneq
    have hlen : (⟨e⟩ : String).length > 0 := by
      show e.length > 0
      exact List.length_pos.mpr hne
    have hsplit1 : pySplit ',' e = [e] :=
      pySplit_not_mem (listContains_eq_false_iff.mp hnc)
    have hsplit2 : pySplit '=' e = [e] :=
      pySplit_not_mem (listContains_eq_false_iff.mp hneq)
    rw [Generator.loadParameters, if_pos hlen]
    show (do
      let pairs ← ((pySplit ',' e).map (pySplit '=')).mapM _
      Except.ok (dictOfPairs pairs)) = _
    rw [hsplit1]
    show (do
      let pairs ← ([pySplit '=' e]).mapM _
      Except.ok (dictOfPairs pairs)) = _
    rw [hsplit2]
    rfl

/-- Witness for `c10_loadParameters` at `"key=v1=v2"`, `"key"`. -/
theorem c10_loadParameters_witness :
    Generator.loadParameters "key=v1=v2" = .ok [("key", "v1")] ∧
    Generator.loadParameters "key" = .error .indexError :=
  ⟨c10_loadParameters.1 "key=v1=v2".data "key".data "v1".data "v2".data
     (by decide) (by decide),
   c10_loadParameters.2.1 "key".data (by decide) (by decide) (by decide)⟩

/-! ## Claim C1 -/

/-- A message `outer` containing one nested message `inner` and one field
`f`; the failing input for the nested-recursion naming prefix. -/
def c1OuterMsg : DescriptorProto :=
  .mk "outer" [⟨"f", 5, "", 1, ""⟩] [.mk "inner" [] [] []] []

/-- Claim C1 (code bug): the traversal order is as claimed — open hook,
nested enums (each with a blank line), nested messages, fields in
declaration order, fix-up, close hook at the caller's indentation — but the
naming prefix handed to the nested recursion is *not* the prefix extended by
the cased message name: the source runs `prefix += "." + name` and then
passes `prefix + name` (generator.py:241,246), so the nested message `inner`
of `outer` under prefix `"Pkg"` sees `"Pkg.OuterOuter"` instead of
`"Pkg.Outer"`, its parent's cased name doubled.  (The engine also appends a
blank line after each nested-message block, visible below.) -/
theorem c1_nested_prefix_doubled :
    Generator.processMessage probeHooks 2 "Pkg" c1OuterMsg 0 =
      .ok ["open Pkg Outer 0",
           "open Pkg.OuterOuter Inner 1",
           "close Inner 1",
           "",
           "field f 1",
           "close Outer 0"] := by
  rfl

/-! ## Claim C3 -/

/-- An enum with no member of value 0, in whose scope the C3 counterexample
field of type `.pkg.Color` lives. -/
def c3ColorEnum : EnumDescriptorProto := ⟨"Color", [⟨"GREEN", 1⟩]⟩

/-- Claim C3 counterexample: the claim says the generated default names the
enum member whose value is 0, resolved by lookup at generation time, with a
fatal failure when no member has value 0.  The code the claim cites —
`KtDataGenerator.processField`, whose signature matches the engine's call —
is never given the enum's members at all: on a field of type `.pkg.Color`,
where the in-scope `Color` enum has no member with value 0 (only
`GREEN = 1`), it raises no error and emits the runtime-lookup expression
`Color from 0`, naming no member. -/
theorem c3_counterexample :
    KtDataGenerator.processField (.mk "M" [] [] [])
        ⟨"col", 14, ".pkg.Color", 1, ""⟩ 1 =
      .ok ["    val col: Color = Color from 0,"] ∧
    ∀ m ∈ c3ColorEnum.value, m.number ≠ 0 :=
  ⟨by rfl, by decide⟩

/-- Claim C3, amended: for every non-repeated enum field with no explicit
default literal (whose mapped type name avoids the scalar keywords checked
earlier in the chain), the field-emission hook emits the default as the
*runtime* lookup expression `<EnumType> from 0`, built from the generated
companion `from` function; it performs no generation-time member lookup and
no missing-zero check, succeeding whatever the enum's members are — a
missing zero member would surface only when the generated Kotlin runs. -/
theorem c3_amended (msg : DescriptorProto) (field : FieldDescriptorProto)
    (il : Nat) (t : String)
    (htype : field.type = FieldDescriptorProto.TYPE_ENUM)
    (hlabel : field.label ≠ FieldDescriptorProto.LABEL_REPEATED)
    (hdv : field.default_value = "")
    (ht : Generator.getTypeName false field.type (some field.type_name) = .ok t)
    (h1 : t ≠ "String") (h2 : t ≠ "Boolean") (h3 : t ≠ "Int") (h4 : t ≠ "Long")
    (h5 : t ≠ "Double") (h6 : t ≠ "Float") (h7 : t ≠ "ByteArray") :
    KtDataGenerator.processField msg field il =
      .ok [KtDataGenerator.indentStr il ++ "val " ++ memberCase field.name
           ++ ": " ++ t ++ " = " ++ t ++ " from 0,"] := by
  rw [KtDataGenerator.processField, ht]
  simp only [Except.map]
  rw [if_neg hlabel, if_neg hlabel]
  rw [if_neg (by simp [hdv])]
  rw [if_neg h1, if_neg h2, if_neg h3, if_neg h4, if_neg h5, if_neg h6,
      if_neg h7, if_pos htype]
  simp only [strAppend_assoc]
  rfl

/-- Witness for `c3_amended` at a concrete `Status`-typed field. -/
theorem c3_amended_witness :
    KtDataGenerator.processField (.mk "M" [] [] [])
        ⟨"kind", 14, ".pkg.Status", 1, ""⟩ 1 =
      .ok ["    val kind: Status = Status from 0,"] :=
  (c3_amended (.mk "M" [] [] []) ⟨"kind", 14, ".pkg.Status", 1, ""⟩ 1 "Status"
    (by rfl) (by decide) (by rfl) (by rfl) (by decide) (by decide) (by decide)
    (by decide) (by decide) (by decide) (by decide)).trans (by rfl)

/-! ## Claim C5 -/

/-- A message with a bytes field whose (valid-schema) explicit default ends
in a comma; its emitted field line ends in two commas. -/
def c5Msg : DescriptorProto :=
  .mk "m" [⟨"b", 12, "", 1, "a,"⟩] [] []

/-- Claim C5 counterexample: the claim's consequent is universal over
targets, but the fix-up strips exactly one trailing comma, so any target
whose field hook emits a line ending in two separator characters defeats it.
`c5Hooks` is such a target — a signature-conforming hook set whose field
hook is the `kmm-data` field emitter verbatim: a bytes field with explicit
default `a,`, copied into the line verbatim
(protoc-gen-kmm-data.py:64-65), yields `... = a,,`, and the emitted field
block's final line still ends in the list separator. -/
theorem c5_counterexample :
    Generator.processMessage c5Hooks 1 "Pkg" c5Msg 0 =
      .ok ["data class M(", "    val b: ByteArray = a,", ")"] ∧
    pyEndsWith "    val b: ByteArray = a," "," = true :=
  ⟨by rfl, by rfl⟩

/-- Claim C5, amended: after the field loop, if the last buffered line ends
in the separator, exactly one trailing separator character is stripped from
it before the close hook runs; consequently the emitted field block's final
line does not end in a separator *provided* that line did not end in two
separator characters (as a verbatim default literal ending in a comma can
produce). -/
theorem c5_amended (h : Hooks) (fuel : Nat) (pfx : String)
    (msg : DescriptorProto) (il : Nat) (pre close : List String)
    (lastLine : String)
    (hbody : Generator.messageBody h fuel pfx msg il = .ok pre)
    (hlast : pre.getLast? = some lastLine)
    (hclose : h.messageClosing msg (typeNameCase msg.name) il = .ok close)
    (hsingle : pyEndsWith (strDropLast lastLine) "," = false) :
    Generator.processMessage h (fuel + 1) pfx msg il =
      .ok ((if pyEndsWith lastLine "," then pre.dropLast ++ [strDropLast lastLine]
            else pre) ++ close) ∧
    ∀ l, ((if pyEndsWith lastLine "," then pre.dropLast ++ [strDropLast lastLine]
           else pre).getLast? = some l) → pyEndsWith l "," = false := by
  have hfix : Generator.fixTrailingComma pre =
      .ok (if pyEndsWith lastLine "," then pre.dropLast ++ [strDropLast lastLine]
           else pre) := by
    rw [Generator.fixTrailingComma, hlast]
  constructor
  · rw [Generator.processMessage_succ, hbody]
    show (do
      let fixed ← Generator.fixTrailingComma pre
      let cl ← h.messageClosing msg (typeNameCase msg.name) il
      pure (fixed ++ cl)) = _
    rw [hfix]
    show (do
      let cl ← h.messageClosing msg (typeNameCase msg.name) il
      pure (_ ++ cl)) = _
    rw [hclose]
    rfl
  · intro l hl
    by_cases hc : pyEndsWith lastLine "," = true
    · rw [if_pos hc, List.getLast?_concat] at hl
      cases hl
      exact hsingle
    · rw [if_neg hc, hlast] at hl
      cases hl
      exact Bool.not_eq_true _ ▸ (by simpa using hc)

/-- A plain one-field message for the `c5_amended` witness. -/
def c5WMsg : DescriptorProto :=
  .mk "m" [⟨"x", 5, "", 1, ""⟩] [] []

/-- Witness for `c5_amended` on the conforming `c5Hooks` target: a normal
`int32` field line ends in exactly one comma, the fix-up strips it, and the
final field line is comma-free. -/
theorem c5_amended_witness :
    Generator.processMessage c5Hooks 1 "P" c5WMsg 0 =
      .ok ["data class M(", "    val x: Int = 0", ")"] :=
  ((c5_amended c5Hooks 0 "P" c5WMsg 0
      ["data class M(", "    val x: Int = 0,"] [")"] "    val x: Int = 0,"
      (by rfl) (by rfl) (by rfl) (by rfl)).1).trans (by rfl)

/-! ## Claim C6 -/

/-- Claim C6: a field with the REPEATED label is emitted with the element
type (any trailing nullability marker stripped) wrapped in `List<...>`, and
its default is always the explicit `emptyList()` literal — never `null` —
including for repeated message element types (whose element arrives with a
trailing `?`) and enum element types. -/
theorem c6_repeated (msg : DescriptorProto) (field : FieldDescriptorProto)
    (il : Nat) (t : String)
    (hlabel : field.label = FieldDescriptorProto.LABEL_REPEATED)
    (ht : Generator.getTypeName false field.type (some field.type_name) = .ok t) :
    KtDataGenerator.processField msg field il =
      .ok [KtDataGenerator.indentStr il ++ "val " ++ memberCase field.name
           ++ ": " ++ ("List<" ++ (if pyEndsWith t "?" then strDropLast t else t)
           ++ ">") ++ " = " ++ "emptyList()" ++ ","] := by
  rw [KtDataGenerator.processField, ht]
  simp only [Except.map]
  rw [if_pos hlabel, if_pos hlabel]

/-- Witness for `c6_repeated` at a repeated message-typed field: the `?` is
stripped from the element and the default is `emptyList()`. -/
theorem c6_repeated_witness :
    KtDataGenerator.processField (.mk "m" [] [] [])
        ⟨"pts", 11, ".pkg.Point", 3, ""⟩ 1 =
      .ok ["    val pts: List<Point> = emptyList(),"] :=
  (c6_repeated (.mk "m" [] [] []) ⟨"pts", 11, ".pkg.Point", 3, ""⟩ 1 "Point?"
    (by rfl) (by rfl)).trans (by rfl)

/-! ## Claim C7 -/

theorem exceptConcat_singleton (x : List String) :
    exceptConcat [Except.ok x] = .ok x := by
  show Except.ok (x ++ []) = Except.ok x
  rw [List.append_nil]

/-- The C7 end-to-end input: one schema file, package `my.pkg`, enum
`Color{RED=0, GREEN=1}` and message `Point{x:int32, y:int32}`. -/
def c7Color : EnumDescriptorProto := ⟨"Color", [⟨"RED", 0⟩, ⟨"GREEN", 1⟩]⟩

/-- The C7 message `Point{x:int32, y:int32}`. -/
def c7Point : DescriptorProto :=
  .mk "Point" [⟨"x", 5, "", 1, ""⟩, ⟨"y", 5, "", 1, ""⟩] [] []

/-- The C7 schema file. -/
def c7File : FileDescriptorProto := ⟨"test.proto", "my.pkg", [c7Color], [c7Point]⟩

/-- The Kotlin (one-file-per-declaration) configuration. -/
def ktCfg : Config := ⟨false, [], "com.example.kmm"⟩

/-- The Swift (one-file-per-package) configuration. -/
def c7CfgSw : Config := ⟨true, [], ""⟩

/-- Claim C7 (code bug): the claim describes exactly what the engine's
partitioning does — for *any* hook set that succeeds on `Color` and `Point`,
the one-file-per-declaration branch produces precisely the two files
`Color.kt` then `Point.kt` (cased declaration name plus extension) and the
one-file-per-package branch produces exactly one file with the `Color`
block before the `Point` block.  But the repo's only one-file-per-declaration
data target, the `kmm-data` plugin, declares `processEnum` without the
naming-prefix parameter the engine passes, so its real run raises
`TypeError` at the very first enum and never produces those files: the last
conjunct evaluates that failing run. -/
theorem c7_partitioning :
    (∀ (h : Hooks) (fuel : Nat) (eb mb : List String),
      h.processEnum "Test.proto" c7Color 0 = .ok eb →
      Generator.processMessage h fuel "Test.proto" c7Point 0 = .ok mb →
      Generator.processMessagesAndEnums ktCfg h fuel c7File =
        .ok [⟨"Color.kt",
              String.intercalate "\n"
                (Generator.getDataHeader ktCfg ++ eb ++ Generator.getDataFooter)⟩,
             ⟨"Point.kt",
              String.intercalate "\n"
                (Generator.getDataHeader ktCfg ++ mb ++ Generator.getDataFooter)⟩] ∧
      Generator.processMessagesAndEnums c7CfgSw h fuel c7File =
        .ok [⟨"My.pkg_.swift",
              String.intercalate "\n"
                (Generator.getDataHeader c7CfgSw ++ eb ++ [""] ++ mb ++ [""])⟩]) ∧
    Generator.processMessagesAndEnums ktCfg ktDataHooks 1 c7File =
      .error .typeErrorArity := by
  constructor
  · intro h fuel eb mb he hm
    constructor
    · rw [Generator.processMessagesAndEnums]
      have hname : typeNameCase c7File.name = "Test.proto" := rfl
      rw [hname]
      rw [if_neg (by decide)]
      show (do
        let enumFiles ← (do
          let b ← (do
            let block ← h.processEnum "Test.proto" c7Color 0
            pure (⟨Generator.getOutputFilenameForClass ktCfg c7File.package
                     (Generator.convertTypeName ktCfg.swift c7Color.name
                      ++ Generator.getRole),
                   String.intercalate "\n" (Generator.getDataHeader ktCfg
                     ++ block ++ Generator.getDataFooter)⟩ : GeneratedFile))
          pure [b])
        let msgFiles ← (do
          let b ← (do
            let block ← Generator.processMessage h fuel "Test.proto" c7Point 0
            pure (⟨Generator.getOutputFilenameForClass ktCfg c7File.package
                     (Generator.convertTypeName ktCfg.swift c7Point.name
                      ++ Generator.getRole),
                   String.intercalate "\n" (Generator.getDataHeader ktCfg
                     ++ block ++ Generator.getDataFooter)⟩ : GeneratedFile))
          pure [b])
        pure (enumFiles ++ msgFiles)) = _
      rw [he, hm]
      rfl
    · rw [Generator.processMessagesAndEnums]
      have hname : typeNameCase c7File.name = "Test.proto" := rfl
      rw [hname]
      rw [if_pos (by rfl)]
      show (do
        let enumBlocks ← exceptConcat
          [(h.processEnum "Test.proto" c7Color 0).map (· ++ [""])]
        let msgBlocks ← exceptConcat
          [(Generator.processMessage h fuel "Test.proto" c7Point 0).map (· ++ [""])]
        let content := Generator.getDataHeader c7CfgSw ++ enumBlocks ++ msgBlocks
                       ++ Generator.getDataFooter
        pure [(⟨Generator.getOutputFilenameForClass c7CfgSw c7File.package
                  Generator.getRole,
               String.intercalate "\n" content⟩ : GeneratedFile)]) = _
      rw [he, hm]
      show (do
        let enumBlocks ← exceptConcat [Except.ok (eb ++ [""])]
        let msgBlocks ← exceptConcat [Except.ok (mb ++ [""])]
        let content := Generator.getDataHeader c7CfgSw ++ enumBlocks ++ msgBlocks
                       ++ Generator.getDataFooter
        pure [(⟨Generator.getOutputFilenameForClass c7CfgSw c7File.package
                  Generator.getRole,
               String.intercalate "\n" content⟩ : GeneratedFile)]) = _
      rw [exceptConcat_singleton, exceptConcat_singleton]
      show Except.ok [(⟨"My.pkg_.swift",
          String.intercalate "\n" (Generator.getDataHeader c7CfgSw ++ (eb ++ [""])
            ++ (mb ++ [""]) ++ [])⟩ : GeneratedFile)] = _
      rw [List.append_nil]
      simp only [List.append_assoc]
  · rfl

/-- Witness for `c7_partitioning` with the probe hook set, a target
conforming to the engine's hook contract. -/
theorem c7_partitioning_witness :
    Generator.processMessagesAndEnums ktCfg probeHooks 1 c7File =
      .ok [⟨"Color.kt",
            String.intercalate "\n"
              (Generator.getDataHeader ktCfg
               ++ ["enum Test.proto Color 0"] ++ Generator.getDataFooter)⟩,
           ⟨"Point.kt",
            String.intercalate "\n"
              (Generator.getDataHeader ktCfg
               ++ ["open Test.proto Point 0", "field x 1", "field y 1",
                   "close Point 0"] ++ Generator.getDataFooter)⟩] ∧
    Generator.processMessagesAndEnums c7CfgSw probeHooks 1 c7File =
      .ok [⟨"My.pkg_.swift",
            String.intercalate "\n"
              (Generator.getDataHeader c7CfgSw
               ++ ["enum Test.proto Color 0"] ++ [""]
               ++ ["open Test.proto Point 0", "field x 1", "field y 1",
                   "close Point 0"] ++ [""])⟩] :=
  c7_partitioning.1 probeHooks 1 _ _ (by rfl) (by rfl)

/-! ## Claim C8 -/

/-- Claim C8 counterexample: the claim says the quirk rewrite applies only
to the *final* segment, so on `"foo_id_bar"` (final segment `bar`) the
result should equal `memberCase`; the code instead rewrites *every* tail
segment equal to `Id`, producing `"fooIDBar"` ≠ `"fooIdBar"`. -/
theorem c8_counterexample :
    swiftMemberCase "foo_id_bar" = "fooIDBar" ∧
    memberCase "foo_id_bar" = "fooIdBar" ∧
    swiftMemberCase "foo_id_bar" ≠ memberCase "foo_id_bar" := by
  refine ⟨rfl, rfl, ?_⟩
  decide

theorem stringJoin_singleton (x : String) : String.join [x] = x := rfl

theorem charToLower_eq_underscore {c : Char} : c.toLower = '_' ↔ c = '_' := by
  simp only [Char.toLower]
  by_cases h : c.toNat ≥ 65 ∧ c.toNat ≤ 90
  · rw [if_pos h]
    constructor
    · intro he
      exfalso
      have := congrArg Char.toNat he
      rw [charToNat_ofNat_valid (Or.inl (by omega))] at this
      have h95 : ('_').toNat = 95 := rfl
      omega
    · intro he
      exfalso
      have : c.toNat = 95 := congrArg Char.toNat he
      omega
  · rw [if_neg h]

theorem pyContains_lowerFirst_underscore (s : String) :
    pyContains (lowerFirstTotal s) '_' = pyContains s '_' := by
  obtain ⟨d⟩ := s
  match d with
  | [] => rfl
  | c :: r =>
    show (List.contains (c.toLower :: r) '_') = (List.contains (c :: r) '_')
    simp only [List.contains_cons]
    congr 1
    have : ('_' == c.toLower) = ('_' == c) := by
      by_cases hc : c = '_'
      · subst hc
        rfl
      · have h1 : c.toLower ≠ '_' := fun e => hc (charToLower_eq_underscore.mp e)
        have h2 : ('_' == c.toLower) = false :=
          beq_eq_false_iff_ne.mpr (fun e => h1 (Eq.symm e))
        have h3 : ('_' == c) = false :=
          beq_eq_false_iff_ne.mpr (fun e => hc (Eq.symm e))
        rw [h2, h3]
    exact this

theorem pyEndsWith_Id_decomp {s : String} (h : pyEndsWith s "Id" = true) :
    ∃ t, t ++ ['I', 'd'] = s.data := by
  have := List.isSuffixOf_iff_suffix.mp (by exact h)
  exact this

theorem pyLowerAll_rewriteD {s : String} (h : pyEndsWith s "Id" = true) :
    pyLowerAll (strDropLast s ++ "D") = pyLowerAll s := by
  obtain ⟨t, ht⟩ := pyEndsWith_Id_decomp h
  have h2 : (t ++ ['I', 'd']).dropLast = t ++ ['I'] := by
    have ha : t ++ ['I', 'd'] = (t ++ ['I']) ++ ['d'] := by
      rw [List.append_assoc]
      rfl
    rw [ha, List.dropLast_concat]
  have hL : pyLowerAll (strDropLast s ++ "D")
      = ⟨((t ++ ['I']) ++ ['D']).map Char.toLower⟩ := by
    show (⟨(s.data.dropLast ++ ['D']).map Char.toLower⟩ : String) = _
    rw [← ht, h2]
  have hR : pyLowerAll s = ⟨(t ++ ['I', 'd']).map Char.toLower⟩ := by
    show (⟨s.data.map Char.toLower⟩ : String) = _
    rw [← ht]
  rw [hL, hR]
  rw [List.map_append, List.map_append, List.map_append]
  rw [show (['I'].map Char.toLower) = ['i'] from rfl,
      show (['D'].map Char.toLower) = ['d'] from rfl,
      show (['I', 'd'].map Char.toLower) = ['i', 'd'] from rfl,
      List.append_assoc]
  rfl

theorem c8_no_underscore_lowered (name : String)
    (h : pyContains name '_' = false) :
    swiftMemberCase name = pyLowerAll name := by
  rw [swiftMemberCase]
  rw [if_pos h]
  have hn : pyContains (lowerFirstTotal name) '_' = false := by
    rw [pyContains_lowerFirst_underscore]
    exact h
  by_cases hId : pyEndsWith (lowerFirstTotal name) "Id" = true
  · rw [if_pos hId]
    have hA : pyContains (strDropLast (lowerFirstTotal name) ++ "D") '_' = false := by
      rw [show pyContains (strDropLast (lowerFirstTotal name) ++ "D") '_'
            = ((lowerFirstTotal name).data.dropLast ++ ['D']).contains '_' from rfl]
      rw [listContains_eq_false_iff]
      intro hm
      rcases List.mem_append.mp hm with hm1 | hm2
      · exact absurd (List.dropLast_subset _ hm1)
          (listContains_eq_false_iff.mp hn)
      · simp at hm2
    have hsplit : pySplitOnChar '_' (strDropLast (lowerFirstTotal name) ++ "D")
        = [strDropLast (lowerFirstTotal name) ++ "D"] := by
      rw [pySplitOnChar,
          pySplit_not_mem (listContains_eq_false_iff.mp hA)]
      rfl
    rw [hsplit]
    show String.join [lowerFirstTotal (pyCapitalize
      (strDropLast (lowerFirstTotal name) ++ "D"))] = _
    rw [stringJoin_singleton, lowerFirst_capitalize, pyLowerAll_rewriteD hId,
        pyLowerAll_lowerFirst]
  · rw [if_neg hId]
    have hsplit : pySplitOnChar '_' (lowerFirstTotal name)
        = [lowerFirstTotal name] := by
      rw [pySplitOnChar,
          pySplit_not_mem (listContains_eq_false_iff.mp hn)]
      rfl
    rw [hsplit]
    show String.join [lowerFirstTotal (pyCapitalize (lowerFirstTotal name))] = _
    rw [stringJoin_singleton, lowerFirst_capitalize, pyLowerAll_lowerFirst]

/-- Claim C8, amended: for names containing an underscore, the quirk casing
equals `memberCase` except that *every* segment after the first whose cased
form is `"Id"` — not only the final one — is rewritten to `"ID"` (so
`"foo_id_bar" ↦ "fooIDBar"`, `"user_id" ↦ "userID"`); and for names with no
underscore it does not equal `memberCase` at all: the missing early return
feeds the name back through the split/capitalize pipeline, fully lowercasing
it (`"userId" ↦ "userid"`). -/
theorem c8_amended :
    (∀ name, pyContains name '_' = true →
       (∀ e ∈ (pySplitOnChar '_' name).tail, pyCapitalize e ≠ "Id") →
       swiftMemberCase name = memberCase name) ∧
    swiftMemberCase "foo_id_bar" = "fooIDBar" ∧
    swiftMemberCase "user_id" = "userID" ∧
    memberCase "user_id" = "userId" ∧
    (∀ name, pyContains name '_' = false →
       swiftMemberCase name = pyLowerAll name) := by
  refine ⟨?_, rfl, rfl, rfl, c8_no_underscore_lowered⟩
  intro name hc hall
  rw [swiftMemberCase, memberCase]
  rw [if_neg (by simp [hc]), if_neg (by simp [hc])]
  obtain ⟨s0, srest, hsplit⟩ : ∃ s0 srest, pySplitOnChar '_' name = s0 :: srest := by
    cases hps : pySplitOnChar '_' name with
    | nil =>
      exfalso
      have := pySplit_ne_nil '_' name.data
      rw [pySplitOnChar] at hps
      exact this (List.map_eq_nil_iff.mp hps)
    | cons a l => exact ⟨a, l, rfl⟩
  rw [hsplit]
  show String.join (lowerFirstTotal (pyCapitalize s0) ::
         (srest.map pyCapitalize).map (fun e => if e = "Id" then "ID" else e))
     = String.join (lowerFirstTotal (pyCapitalize s0) :: srest.map pyCapitalize)
  congr 1
  have hmap : ∀ x ∈ srest.map pyCapitalize,
      (fun e => if e = "Id" then "ID" else e) x = id x := by
    intro x hx
    obtain ⟨e, he, rfl⟩ := List.mem_map.mp hx
    have hne : pyCapitalize e ≠ "Id" := hall e (by rw [hsplit]; exact he)
    simp [hne]
  rw [List.map_congr_left hmap, List.map_id]

/-- Witness for `c8_amended`: an underscore name with no `Id` tail segment
agrees with `memberCase`; an underscore-free mixed-case name is lowercased. -/
theorem c8_amended_witness :
    swiftMemberCase "foo_bar" = memberCase "foo_bar" ∧
    swiftMemberCase "fooBar" = pyLowerAll "fooBar" :=
  ⟨c8_amended.1 "foo_bar" (by decide) (by decide),
   c8_amended.2.2.2.2 "fooBar" (by decide)⟩
